import Mathlib

/-!
Verification development for the r2-notify socket service.

The Go sources are shallowly embedded as pure Lean functions:

* the process-local connection registry (`clients` map) and the external
  Redis client-info store become association lists inside `StoreState`;
* websocket connection handles become `Nat` values; whether a write to a
  handle succeeds is supplied by an environment oracle `writeOk : Conn → Bool`;
* fallible external calls (Redis `Set`, Mongo operations) take a Boolean
  success oracle mirroring the places the Go code checks `err != nil`;
* the Mongo `notifications` collection becomes a list of records; the
  `configurations` collection becomes an association list keyed by userId;
* `time.Time` fields (`ConnectedAt`, `CreatedAt`, `UpdatedAt`) carry no
  information any claim depends on and are omitted from the records.
-/

deriving instance DecidableEq for Except

namespace R2Notify

/-- Connection handle: opaque reference to one live websocket (`*websocket.Conn`
in the Go code); identity is all that matters, so it is modelled as `Nat`. -/
abbrev Conn := Nat

/-- Mirror of `models.ClientInfo` as used by the service: the user id and the
notification-enabled flag stored in Redis under key `"client:" + id`.
(`ConnectedAt` is a timestamp no operation reads; omitted.) -/
structure ClientInfo where
  id : String
  enableNotification : Bool
  deriving Repr, DecidableEq

/-- Association-list map with string keys, modelling both the Go
`map[string][]*websocket.Conn` and the Redis keyspace. -/
abbrev AList (β : Type) := List (String × β)

/-- Lookup in an association list (Go map read `m[k]` / Redis `Get`). -/
def alookup {β : Type} : AList β → String → Option β
  | [], _ => none
  | (k', v) :: rest, k => if k' = k then some v else alookup rest k

/-- Insert-or-replace in an association list (Go map write `m[k] = v` /
Redis `Set`). -/
def aset {β : Type} : AList β → String → β → AList β
  | [], k, v => [(k, v)]
  | (k', v') :: rest, k, v =>
      if k' = k then (k, v) :: rest else (k', v') :: aset rest k v

/-- Key removal from an association list (Go `delete(m, k)` / Redis `Del`). -/
def aerase {β : Type} : AList β → String → AList β
  | [], _ => []
  | (k', v') :: rest, k =>
      if k' = k then aerase rest k else (k', v') :: aerase rest k

/-- Combined state of `services/client_store.go`: the process-local
`clients` map (userID → connection slice) and the external Redis store of
`ClientInfo` records (keyed here by the user id; the Go key is the injective
`"client:" + id`). -/
structure StoreState where
  clients : AList (List Conn)
  redis : AList ClientInfo
  deriving Repr, DecidableEq

/-- Embedding of `StoreClient`: appends the connection to the user's slice in
the in-memory map, then attempts the Redis `Set` (success given by the oracle
`redisSetOk`); on Redis failure it returns an error but the map mutation has
already happened and is not rolled back. -/
def StoreClient (st : StoreState) (redisSetOk : Bool) (info : ClientInfo)
    (conn : Conn) : Except Unit Unit × StoreState :=
  let conns := (alookup st.clients info.id).getD []
  let st1 : StoreState := { st with clients := aset st.clients info.id (conns ++ [conn]) }
  if redisSetOk then
    (Except.ok (), { st1 with redis := aset st1.redis info.id info })
  else
    (Except.error (), st1)

/-- Embedding of `RemoveConnection`: no-op when the user has no map entry;
otherwise filters the closing connection out of the slice; when nothing
remains, deletes the map entry and the Redis record, else stores the
shrunken slice. -/
def RemoveConnection (st : StoreState) (userId : String) (conn : Conn) :
    StoreState :=
  match alookup st.clients userId with
  | none => st
  | some conns =>
      let remaining := conns.filter (fun c => c ≠ conn)
      if remaining = [] then
        { clients := aerase st.clients userId, redis := aerase st.redis userId }
      else
        { st with clients := aset st.clients userId remaining }

/-- Embedding of `GetClientInfo`: Redis `Get` of `"client:" + id`; errors when
the key is absent (redis.Nil); a stored record always unmarshals. -/
def GetClientInfo (st : StoreState) (id : String) : Except Unit ClientInfo :=
  match alookup st.redis id with
  | none => Except.error ()
  | some info => Except.ok info

/-- Embedding of `UpdateClientInfo`: Redis `Set` overwriting the whole record;
on failure (oracle `redisSetOk = false`) the store is unchanged and an error
is returned. -/
def UpdateClientInfo (st : StoreState) (redisSetOk : Bool) (info : ClientInfo) :
    Except Unit Unit × StoreState :=
  if redisSetOk then
    (Except.ok (), { st with redis := aset st.redis info.id info })
  else
    (Except.error (), st)

/-- Errors `sendToUser` can return (the JSON marshal of the concrete payload
structs never fails and is not a modelled error source). -/
inductive SendError
  | userNotConnected
  | clientInfoMissing
  | notificationsDisabled
  deriving Repr, DecidableEq

/-- Embedding of `getConnAndInfo`: map read (`ok` is false only when the key
is absent — an empty slice under the key is a successful lookup), then the
Redis fetch of `ClientInfo`. -/
def getConnAndInfo (st : StoreState) (userID : String) :
    Except SendError (List Conn × ClientInfo) :=
  match alookup st.clients userID with
  | none => Except.error SendError.userNotConnected
  | some conns =>
      match GetClientInfo st userID with
      | Except.error _ => Except.error SendError.clientInfoMissing
      | Except.ok info => Except.ok (conns, info)

/-- Result of one `sendToUser` call: the Go return value, the state after the
call, the connections to which a `WriteMessage` was attempted, and whether the
payload serialization step was reached. -/
structure SendOutcome where
  result : Except SendError Unit
  state : StoreState
  attempted : List Conn
  serialized : Bool
  deriving Repr, DecidableEq

/-- Embedding of `sendToUser`: lookup, gate check
(`!bypassNotificationCheck && !clientInfo.EnableNotification`), serialize,
write to every connection in the slice, keep exactly the connections whose
write succeeded (oracle `writeOk`) as the user's new slice, and return `ok`
regardless of per-connection write failures. -/
def sendToUser (st : StoreState) (writeOk : Conn → Bool) (userID : String)
    (bypassNotificationCheck : Bool) : SendOutcome :=
  match getConnAndInfo st userID with
  | Except.error e => ⟨Except.error e, st, [], false⟩
  | Except.ok (conns, info) =>
      if !bypassNotificationCheck && !info.enableNotification then
        ⟨Except.error SendError.notificationsDisabled, st, [], false⟩
      else
        let active := conns.filter writeOk
        ⟨Except.ok (), { st with clients := aset st.clients userID active },
          conns, true⟩

/-- Mirror of `models.Notification` as stored in the Mongo `notifications`
collection: the ObjectID is its 24-hex-digit string form; the two `time.Time`
fields are omitted (no claim depends on them). -/
structure NotifRecord where
  id : String
  userId : String
  appId : String
  groupKey : String
  message : String
  status : String
  readStatus : Bool
  deriving Repr, DecidableEq

/-- The double-quote and single-quote characters, the cutset of
`strings.Trim(s, "\x22'")` used by the repository. -/
def isQuoteChar (c : Char) : Bool :=
  c = Char.ofNat 34 || c = Char.ofNat 39

/-- Drop characters satisfying `p` from both ends of a string
(`strings.Trim` / `strings.TrimSpace` with the corresponding cutset). -/
def trimChars (p : Char → Bool) (s : String) : String :=
  String.mk (((s.data.dropWhile p).reverse.dropWhile p).reverse)

/-- The id normalization every id-taking repository method performs:
`strings.TrimSpace` followed by `strings.Trim(s, "\x22'")`. -/
def goTrimId (s : String) : String :=
  trimChars isQuoteChar (trimChars Char.isWhitespace s)

/-- Hexadecimal digit test for ObjectID strings. -/
def isHexChar (c : Char) : Bool :=
  (Char.ofNat 48 ≤ c && c ≤ Char.ofNat 57) ||
  (Char.ofNat 97 ≤ c && c ≤ Char.ofNat 102) ||
  (Char.ofNat 65 ≤ c && c ≤ Char.ofNat 70)

/-- Embedding of `primitive.ObjectIDFromHex`: succeeds exactly on 24-character
hexadecimal strings, returning the id unchanged. -/
def objectIDFromHex (s : String) : Option String :=
  if s.length = 24 && s.data.all isHexChar then some s else none

/-- Repository `FindAll`: the Mongo filter
`{userId: userId, readStatus: false}` over the collection. -/
def FindAll (db : List NotifRecord) (userId : String) : List NotifRecord :=
  db.filter (fun r => r.userId = userId && !r.readStatus)

/-- Repository `Create`: `InsertOne` of the record; Mongo generates the fresh
ObjectID, supplied here as `newId`. -/
def CreateNotification (db : List NotifRecord) (newId : String)
    (r : NotifRecord) : List NotifRecord :=
  db ++ [{ r with id := newId }]

/-- Repository `MarkAsRead`: `UpdateMany` with filter `{userId: clientId}`
setting `readStatus: true`. -/
def MarkAsRead (db : List NotifRecord) (clientId : String) :
    Except Unit (List NotifRecord) :=
  Except.ok (db.map (fun r =>
    if r.userId = clientId then { r with readStatus := true } else r))

/-- Repository `MarkAppAsRead`: trims the appId, then `UpdateMany` with filter
`{userId: clientId, appId: appId}` setting `readStatus: true`. -/
def MarkAppAsRead (db : List NotifRecord) (clientId appId : String) :
    Except Unit (List NotifRecord) :=
  let appId := goTrimId appId
  Except.ok (db.map (fun r =>
    if r.userId = clientId && r.appId = appId then
      { r with readStatus := true } else r))

/-- Repository `MarkGroupAsRead`: trims appId and groupKey, then `UpdateMany`
with filter `{userId, appId, groupKey}` setting `readStatus: true`. -/
def MarkGroupAsRead (db : List NotifRecord) (clientId appId groupKey : String) :
    Except Unit (List NotifRecord) :=
  let appId := goTrimId appId
  let groupKey := goTrimId groupKey
  Except.ok (db.map (fun r =>
    if r.userId = clientId && r.appId = appId && r.groupKey = groupKey then
      { r with readStatus := true } else r))

/-- Repository `MarkNotificationAsRead`: trims the id, converts it with
`ObjectIDFromHex` (error on failure), then `UpdateByID` — the update filter is
the `_id` ALONE; the `clientId` argument is used only for logging. -/
def MarkNotificationAsRead (db : List NotifRecord)
    (_clientId notificationId : String) : Except Unit (List NotifRecord) :=
  let nid := goTrimId notificationId
  match objectIDFromHex nid with
  | none => Except.error ()
  | some objID =>
      Except.ok (db.map (fun r =>
        if r.id = objID then { r with readStatus := true } else r))

/-- Repository `DeleteNotifications`: `DeleteMany` with filter
`{userId: clientId}`. -/
def DeleteNotifications (db : List NotifRecord) (clientId : String) :
    Except Unit (List NotifRecord) :=
  Except.ok (db.filter (fun r => !(r.userId = clientId)))

/-- Repository `DeleteAppNotifications`: trims the appId, then `DeleteMany`
with filter `{userId, appId}`. -/
def DeleteAppNotifications (db : List NotifRecord) (clientId appId : String) :
    Except Unit (List NotifRecord) :=
  let appId := goTrimId appId
  Except.ok (db.filter (fun r => !(r.userId = clientId && r.appId = appId)))

/-- Repository `DeleteGroupNotifications`: trims appId and groupKey, then
`DeleteMany` with filter `{userId, appId, groupKey}`. -/
def DeleteGroupNotifications (db : List NotifRecord)
    (clientId appId groupKey : String) : Except Unit (List NotifRecord) :=
  let appId := goTrimId appId
  let groupKey := goTrimId groupKey
  Except.ok (db.filter (fun r =>
    !(r.userId = clientId && r.appId = appId && r.groupKey = groupKey)))

/-- Repository `DeleteNotification`: trims the id, converts it with
`ObjectIDFromHex` (error on failure), then `DeleteOne` with filter
`{userId: clientId, _id: objID}` — BOTH fields must match, and at most one
document is removed. -/
def DeleteNotification (db : List NotifRecord)
    (clientId notificationId : String) : Except Unit (List NotifRecord) :=
  let nid := goTrimId notificationId
  match objectIDFromHex nid with
  | none => Except.error ()
  | some objID =>
      Except.ok (db.eraseP (fun r => r.userId = clientId && r.id = objID))

/-- Wire discriminator `newNotification` from `data/constants.go`. -/
def NEW_NOTIFICATION : String := "newNotification"

/-- Wire discriminator `listNotifications`. -/
def LIST_NOTIFICATIONS : String := "listNotifications"

/-- Wire discriminator `listConfigurations`. -/
def LIST_CONFIGURATIONS : String := "listConfigurations"

/-- Client action `markAsRead`. -/
def MARK_AS_READ : String := "markAsRead"

/-- Client action `markAppAsRead`. -/
def MARK_APP_AS_READ : String := "markAppAsRead"

/-- Client action `markGroupAsRead`. -/
def MARK_GROUP_AS_READ : String := "markGroupAsRead"

/-- Client action `markNotificationAsRead`. -/
def MARK_NOTIFICATION_AS_READ : String := "markNotificationAsRead"

/-- Client action `deleteNotifications`. -/
def DELETE_NOTIFICATIONS : String := "deleteNotifications"

/-- Client action `deleteAppNotifications`. -/
def DELETE_APP_NOTIFICATIONS : String := "deleteAppNotifications"

/-- Client action `deleteGroupNotifications`. -/
def DELETE_GROUP_NOTIFICATIONS : String := "deleteGroupNotifications"

/-- Client action `deleteNotification`. -/
def DELETE_NOTIFICATION : String := "deleteNotification"

/-- Client action `reloadNotifications`. -/
def RELOAD_NOTIFICATIONS : String := "reloadNotifications"

/-- Client action `toggleNotificationStatus`. -/
def TOGGLE_NOTIFICATION_STATUS : String := "toggleNotificationStatus"

/-- The fields of `data.EventNotification`'s `Data` payload that the action
handlers read (`event.Data.Id`, `event.Data.AppId`, `event.Data.GroupKey`). -/
structure EventData where
  id : String
  appId : String
  groupKey : String
  deriving Repr, DecidableEq

/-- The field of the inbound `data.Configuration` payload the toggle handler
reads (`event.EnableNotification`). -/
structure ConfigData where
  enableNotification : Bool
  deriving Repr, DecidableEq

/-- Decode results of one raw inbound client message: the same bytes are
unmarshalled up to three times in the Go handler — into `data.Event`
(`outer`, the envelope discriminator), into `data.EventNotification`
(`innerNotif`, the payload fields the actions use), and into
`data.Configuration` (`innerConfig`). `none` means that unmarshal fails. -/
structure Frame where
  outer : Option String
  innerNotif : Option EventData
  innerConfig : Option ConfigData
  deriving Repr, DecidableEq

/-- Oracle bundle for one step of session processing: which external calls
succeed.  `writeOk` gives per-connection `WriteMessage` success; the Booleans
give Redis/Mongo call success at the points where the Go code checks errors. -/
structure Env where
  writeOk : Conn → Bool
  persistOk : Bool
  findOk : Bool
  cfgFindOk : Bool
  cfgUpdateOk : Bool
  cfgCreateOk : Bool
  redisSetOk : Bool

/-- Record of one invocation of `sendAllNotificationsToClient`: the target
user, whether the `FindAll` fetch succeeded, the fetched payload, the result
of the gated `SendNotificationListToUser` call (`none` when the fetch failed
and no send was attempted), and the connections written to. -/
structure ListResendInfo where
  userId : String
  fetchOk : Bool
  payload : List NotifRecord
  result : Option (Except SendError Unit)
  attempted : List Conn
  deriving Repr, DecidableEq

/-- Record of one invocation of `sendConfigurationsToClient`: the target
user, whether the configuration fetch succeeded, the flag sent, the result of
the bypassing `SendConfigurationToUser` call, and the connections written. -/
structure ConfigResendInfo where
  userId : String
  fetchOk : Bool
  enable : Option Bool
  result : Option (Except SendError Unit)
  attempted : List Conn
  deriving Repr, DecidableEq

/-- One observable step of an action handler: its own persistence call (with
outcome), an unread-list resend invocation, or a configuration resend
invocation. -/
inductive Step
  | actionPersist (ok : Bool)
  | listResend (i : ListResendInfo)
  | configResend (i : ConfigResendInfo)
  deriving Repr, DecidableEq

/-- Discriminator of a `Step`. -/
inductive StepKind
  | persistK
  | listK
  | configK
  deriving Repr, DecidableEq

/-- The kind of a step. -/
def Step.kind : Step → StepKind
  | Step.actionPersist _ => StepKind.persistK
  | Step.listResend _ => StepKind.listK
  | Step.configResend _ => StepKind.configK

/-- The user a resend step targets (`none` for persistence steps). -/
def Step.user : Step → Option String
  | Step.actionPersist _ => none
  | Step.listResend i => some i.userId
  | Step.configResend i => some i.userId

/-- Full state a session touches: the Mongo notifications collection, the
connection registry plus Redis, and the Mongo configurations collection
(userId → enableNotifications; row ObjectIDs carry no claim-relevant data). -/
structure SessionState where
  db : List NotifRecord
  store : StoreState
  cfgs : AList Bool
  deriving Repr, DecidableEq

/-- Compose the per-action Mongo call with its infrastructure oracle: when
the oracle reports failure the collection is unchanged and the call errors;
otherwise the repository result applies (it may itself be an error, e.g. a
bad ObjectID, leaving the collection unchanged). -/
def runMutation (persistOk : Bool) (res : Except Unit (List NotifRecord))
    (db : List NotifRecord) : Bool × List NotifRecord :=
  if persistOk then
    match res with
    | Except.ok db' => (true, db')
    | Except.error _ => (false, db)
  else (false, db)

/-- Embedding of `sendAllNotificationsToClient`: `FindAll` the unread list
(failure → log only, no send), then `SendNotificationListToUser` — a
`sendToUser` with the notification gate NOT bypassed. -/
def sendAllNotificationsToClient (env : Env) (clientId : String)
    (s : SessionState) : SessionState × Step :=
  if env.findOk then
    let ns := FindAll s.db clientId
    let o := sendToUser s.store env.writeOk clientId false
    ({ s with store := o.state },
      Step.listResend ⟨clientId, true, ns, some o.result, o.attempted⟩)
  else
    (s, Step.listResend ⟨clientId, false, [], none, []⟩)

/-- Embedding of `sendConfigurationsToClient`: fetch the configuration row
(`FindByAppAndUser` fails when the row is absent or on an infrastructure
error, in which case nothing is sent), then `SendConfigurationToUser` with
the gate BYPASSED. -/
def sendConfigurationsToClient (env : Env) (clientId : String)
    (s : SessionState) : SessionState × Step :=
  match (if env.cfgFindOk then alookup s.cfgs clientId else none) with
  | none => (s, Step.configResend ⟨clientId, false, none, none, []⟩)
  | some en =>
      let o := sendToUser s.store env.writeOk clientId true
      ({ s with store := o.state },
        Step.configResend ⟨clientId, true, some en, some o.result, o.attempted⟩)

/-- Embedding of `markAsReadAction`: mark-all persistence call (error logged
only), then unconditionally the unread-list resend. -/
def markAsReadAction (env : Env) (clientID : String) (s : SessionState) :
    SessionState × List Step :=
  let p := runMutation env.persistOk (MarkAsRead s.db clientID) s.db
  let r := sendAllNotificationsToClient env clientID { s with db := p.2 }
  (r.1, [Step.actionPersist p.1, r.2])

/-- Embedding of `markAppReadAction`: unmarshal the message into
`data.EventNotification` (failure → log and return, nothing else happens),
persistence call, then the unread-list resend. -/
def markAppReadAction (env : Env) (f : Frame) (clientID : String)
    (s : SessionState) : SessionState × List Step :=
  match f.innerNotif with
  | none => (s, [])
  | some d =>
      let p := runMutation env.persistOk (MarkAppAsRead s.db clientID d.appId) s.db
      let r := sendAllNotificationsToClient env clientID { s with db := p.2 }
      (r.1, [Step.actionPersist p.1, r.2])

/-- Embedding of `markGroupAsReadAction`: inner unmarshal (failure → return),
persistence call, then the unread-list resend. -/
def markGroupAsReadAction (env : Env) (f : Frame) (clientID : String)
    (s : SessionState) : SessionState × List Step :=
  match f.innerNotif with
  | none => (s, [])
  | some d =>
      let p := runMutation env.persistOk
        (MarkGroupAsRead s.db clientID d.appId d.groupKey) s.db
      let r := sendAllNotificationsToClient env clientID { s with db := p.2 }
      (r.1, [Step.actionPersist p.1, r.2])

/-- Embedding of `markNotificationAsReadAction`: inner unmarshal (failure →
return), persistence call, then the unread-list resend. -/
def markNotificationAsReadAction (env : Env) (f : Frame) (clientID : String)
    (s : SessionState) : SessionState × List Step :=
  match f.innerNotif with
  | none => (s, [])
  | some d =>
      let p := runMutation env.persistOk
        (MarkNotificationAsRead s.db clientID d.id) s.db
      let r := sendAllNotificationsToClient env clientID { s with db := p.2 }
      (r.1, [Step.actionPersist p.1, r.2])

/-- Embedding of `deleteNotificationsAction`: delete-all persistence call,
then unconditionally the unread-list resend. -/
def deleteNotificationsAction (env : Env) (clientID : String)
    (s : SessionState) : SessionState × List Step :=
  let p := runMutation env.persistOk (DeleteNotifications s.db clientID) s.db
  let r := sendAllNotificationsToClient env clientID { s with db := p.2 }
  (r.1, [Step.actionPersist p.1, r.2])

/-- Embedding of `deleteAppNotificationsAction`: inner unmarshal (failure →
return), persistence call, then the unread-list resend. -/
def deleteAppNotificationsAction (env : Env) (f : Frame) (clientID : String)
    (s : SessionState) : SessionState × List Step :=
  match f.innerNotif with
  | none => (s, [])
  | some d =>
      let p := runMutation env.persistOk
        (DeleteAppNotifications s.db clientID d.appId) s.db
      let r := sendAllNotificationsToClient env clientID { s with db := p.2 }
      (r.1, [Step.actionPersist p.1, r.2])

/-- Embedding of `deleteGroupNotificationAction`: inner unmarshal (failure →
return), persistence call, then the unread-list resend. -/
def deleteGroupNotificationAction (env : Env) (f : Frame) (clientID : String)
    (s : SessionState) : SessionState × List Step :=
  match f.innerNotif with
  | none => (s, [])
  | some d =>
      let p := runMutation env.persistOk
        (DeleteGroupNotifications s.db clientID d.appId d.groupKey) s.db
      let r := sendAllNotificationsToClient env clientID { s with db := p.2 }
      (r.1, [Step.actionPersist p.1, r.2])

/-- Embedding of `deleteNotificationAction`: inner unmarshal (failure →
return), persistence call, then the unread-list resend. -/
def deleteNotificationAction (env : Env) (f : Frame) (clientID : String)
    (s : SessionState) : SessionState × List Step :=
  match f.innerNotif with
  | none => (s, [])
  | some d =>
      let p := runMutation env.persistOk
        (DeleteNotification s.db clientID d.id) s.db
      let r := sendAllNotificationsToClient env clientID { s with db := p.2 }
      (r.1, [Step.actionPersist p.1, r.2])

/-- Embedding of `toggleNotificationStatusAction`: unmarshal into
`data.Configuration` (failure → return); `configurationService.Update`
(repository `UpdateOne` errors when no row matches the user; the handler only
logs the error); `clientStore.UpdateClientInfo` overwriting the Redis record
(returned error discarded); if the new flag is true, the unread-list resend;
finally always the configuration resend. -/
def toggleNotificationStatusAction (env : Env) (f : Frame) (clientID : String)
    (s : SessionState) : SessionState × List Step :=
  match f.innerConfig with
  | none => (s, [])
  | some cfg =>
      let updOk := env.cfgUpdateOk && (alookup s.cfgs clientID).isSome
      let cfgs' := if updOk then aset s.cfgs clientID cfg.enableNotification
                   else s.cfgs
      let u := UpdateClientInfo s.store env.redisSetOk
        ⟨clientID, cfg.enableNotification⟩
      let s1 : SessionState := { db := s.db, store := u.2, cfgs := cfgs' }
      if cfg.enableNotification then
        let r1 := sendAllNotificationsToClient env clientID s1
        let r2 := sendConfigurationsToClient env clientID r1.1
        (r2.1, [Step.actionPersist updOk, r1.2, r2.2])
      else
        let r2 := sendConfigurationsToClient env clientID s1
        (r2.1, [Step.actionPersist updOk, r2.2])

/-- Embedding of the `switch event.Event` dispatch in the session read loop:
`ev` is the successfully-decoded outer discriminator, `f` the raw message's
decode results. Unknown discriminators only log a warning. -/
def dispatch (env : Env) (clientID : String) (ev : String) (f : Frame)
    (s : SessionState) : SessionState × List Step :=
  if ev = MARK_AS_READ then markAsReadAction env clientID s
  else if ev = MARK_APP_AS_READ then markAppReadAction env f clientID s
  else if ev = MARK_GROUP_AS_READ then markGroupAsReadAction env f clientID s
  else if ev = MARK_NOTIFICATION_AS_READ then
    markNotificationAsReadAction env f clientID s
  else if ev = DELETE_NOTIFICATIONS then deleteNotificationsAction env clientID s
  else if ev = DELETE_APP_NOTIFICATIONS then
    deleteAppNotificationsAction env f clientID s
  else if ev = DELETE_GROUP_NOTIFICATIONS then
    deleteGroupNotificationAction env f clientID s
  else if ev = DELETE_NOTIFICATION then deleteNotificationAction env f clientID s
  else if ev = RELOAD_NOTIFICATIONS then
    let r := sendAllNotificationsToClient env clientID s
    (r.1, [r.2])
  else if ev = TOGGLE_NOTIFICATION_STATUS then
    toggleNotificationStatusAction env f clientID s
  else (s, [])

/-- One occurrence on a session's inbound side: either `conn.ReadMessage`
returns an error, or it delivers a message whose decode results are `f`. -/
inductive InEvent
  | readErr
  | msg (f : Frame)
  deriving Repr, DecidableEq

/-- Result of running the session read loop over a finite schedule of inbound
occurrences: the final state, whether the loop exited (the session left the
Streaming state: `RemoveConnection` then `break`), and the concatenated
action traces. -/
structure LoopOut where
  sess : SessionState
  exited : Bool
  trace : List Step
  deriving Repr, DecidableEq

/-- Embedding of the session read/dispatch goroutine in
`NewWebSocketHandler`: a read error unregisters the handle and breaks the
loop; a message whose outer-envelope decode fails is skipped (`continue`)
and the loop keeps running; otherwise the frame is dispatched. -/
def readLoop (env : Env) (clientID : String) (conn : Conn) :
    List InEvent → SessionState → LoopOut
  | [], s => ⟨s, false, []⟩
  | InEvent.readErr :: _, s =>
      ⟨{ s with store := RemoveConnection s.store clientID conn }, true, []⟩
  | InEvent.msg f :: rest, s =>
      match f.outer with
      | none => readLoop env clientID conn rest s
      | some ev =>
          let d := dispatch env clientID ev f s
          let out := readLoop env clientID conn rest d.1
          ⟨out.sess, out.exited, d.2 ++ out.trace⟩

/-- Embedding of the keepalive goroutine: each tick writes a ping
(per-tick success given by the schedule); the first failed ping write removes
the connection from the registry and stops the task (its deferred cleanup
closes the socket). A finite all-success schedule leaves the task running. -/
def keepaliveLoop (st : StoreState) (clientID : String) (conn : Conn) :
    List Bool → Bool × StoreState
  | [] => (false, st)
  | ok :: rest =>
      if ok then keepaliveLoop st clientID conn rest
      else (true, RemoveConnection st clientID conn)

/-- Result of the connection-establishment part of `NewWebSocketHandler`
(after a successful upgrade and a non-empty `userId`). -/
structure ConnectOut where
  sess : SessionState
  aborted : Bool
  unregisterCalled : Bool
  trace : List Step
  deriving Repr, DecidableEq

/-- Embedding of the handshake in `NewWebSocketHandler`: fetch-or-create the
configuration row (create defaults the flag to true; create failure closes
the socket and aborts), build `ClientInfo` and call `StoreClient`; when
`StoreClient` fails, the handler logs, calls `conn.Close()` and returns —
WITHOUT calling `RemoveConnection` — leaving the just-appended handle in the
registry map; on success it pushes the initial unread list and
configuration. -/
def handleConnect (env : Env) (clientID : String) (conn : Conn)
    (s : SessionState) : ConnectOut :=
  let fetched := if env.cfgFindOk then alookup s.cfgs clientID else none
  let cr : Option (Bool × AList Bool) :=
    match fetched with
    | some en => some (en, s.cfgs)
    | none =>
        if env.cfgCreateOk then some (true, aset s.cfgs clientID true)
        else none
  match cr with
  | none => ⟨s, true, false, []⟩
  | some (isEnable, cfgs') =>
      let sc := StoreClient s.store env.redisSetOk ⟨clientID, isEnable⟩ conn
      let s1 : SessionState := { db := s.db, store := sc.2, cfgs := cfgs' }
      match sc.1 with
      | Except.error _ => ⟨s1, true, false, []⟩
      | Except.ok _ =>
          let r1 := sendAllNotificationsToClient env clientID s1
          let r2 := sendConfigurationsToClient env clientID r1.1
          ⟨r2.1, false, false, [r1.2, r2.2]⟩

/-- Mirror of `data.EventHubNotificationPayload`, the upstream event schema. -/
structure UpstreamPayload where
  appId : String
  userId : String
  groupKey : String
  message : String
  status : String
  deriving Repr, DecidableEq

/-- Result of the Event Hub per-event callback. -/
structure ConsumerOut where
  db : List NotifRecord
  store : StoreState
  persisted : Bool
  pushResult : Option (Except SendError Unit)
  pushAttempted : List Conn
  deriving Repr, DecidableEq

/-- Embedding of the per-event callback in `StartEventHubConsumer`: decode
the upstream payload (`none` = unmarshal failure → skip), build the
notification with `ReadStatus: false`, persist it (`createOk` oracle; Mongo
assigns `newId`; failure → skip, event dropped), then push a
`newNotification` envelope through `SendNotificationToUser` — a `sendToUser`
with the gate NOT bypassed. -/
def onEventReceived (db : List NotifRecord) (st : StoreState)
    (writeOk : Conn → Bool) (newId : String) (createOk : Bool)
    (decoded : Option UpstreamPayload) : ConsumerOut :=
  match decoded with
  | none => ⟨db, st, false, none, []⟩
  | some ed =>
      if createOk then
        let m : NotifRecord :=
          ⟨"", ed.userId, ed.appId, ed.groupKey, ed.message, ed.status, false⟩
        let db' := CreateNotification db newId m
        let o := sendToUser st writeOk ed.userId false
        ⟨db', o.state, true, some o.result, o.attempted⟩
      else ⟨db, st, false, none, []⟩

/-- Sequential registration of several handles for one user, every Redis
write succeeding (`StoreClient` called once per handle). -/
def registerAll (st : StoreState) (info : ClientInfo) (cs : List Conn) :
    StoreState :=
  cs.foldl (fun s c => (StoreClient s true info c).2) st

/-- Sequential unregistration of several handles for one user
(`RemoveConnection` called once per handle). -/
def removeAll (st : StoreState) (userId : String) (hs : List Conn) :
    StoreState :=
  hs.foldl (fun s c => RemoveConnection s userId c) st

theorem alookup_aset_self {β : Type} (m : AList β) (k : String) (v : β) :
    alookup (aset m k v) k = some v := by
  induction m with
  | nil => simp [aset, alookup]
  | cons p rest ih =>
      obtain ⟨k', v'⟩ := p
      by_cases h : k' = k
      · simp [aset, h, alookup]
      · simp [aset, h, alookup, ih]

theorem alookup_aset_ne {β : Type} (m : AList β) (k k' : String) (v : β)
    (h : k ≠ k') : alookup (aset m k v) k' = alookup m k' := by
  induction m with
  | nil => simp [aset, alookup, h]
  | cons p rest ih =>
      obtain ⟨k'', v''⟩ := p
      by_cases h2 : k'' = k
      · subst h2
        simp [aset, alookup, h, ih]
      · simp only [aset, if_neg h2, alookup]
        by_cases h3 : k'' = k'
        · simp [h3]
        · simp [h3, ih]

theorem alookup_aerase_self {β : Type} (m : AList β) (k : String) :
    alookup (aerase m k) k = none := by
  induction m with
  | nil => simp [aerase, alookup]
  | cons p rest ih =>
      obtain ⟨k', v'⟩ := p
      by_cases h : k' = k
      · simp [aerase, h, ih]
      · simp [aerase, h, alookup, ih]

theorem alookup_aerase_ne {β : Type} (m : AList β) (k k' : String)
    (h : k ≠ k') : alookup (aerase m k) k' = alookup m k' := by
  induction m with
  | nil => simp [aerase]
  | cons p rest ih =>
      obtain ⟨k'', v''⟩ := p
      by_cases h2 : k'' = k
      · subst h2
        simp [aerase, alookup, h, ih]
      · simp only [aerase, if_neg h2, alookup]
        by_cases h3 : k'' = k'
        · simp [h3]
        · simp [h3, ih]

theorem aset_eq_of_lookup {β : Type} (m : AList β) (k : String) (v : β)
    (h : alookup m k = some v) : aset m k v = m := by
  induction m with
  | nil => simp [alookup] at h
  | cons p rest ih =>
      obtain ⟨k', v'⟩ := p
      by_cases h2 : k' = k
      · subst h2
        simp [alookup] at h
        simp [aset, h]
      · simp [alookup, h2] at h
        simp [aset, h2, ih h]

/-- C1: for a user with at least one live handle and a readable ClientInfo
record, a non-bypassed `sendToUser` attempts no write iff the record's
notification flag is false; when the flag is false it returns the
notifications-disabled error without reaching serialization, and when the
flag is true a write is attempted to every live handle. -/
theorem claim1_gate (st : StoreState) (writeOk : Conn → Bool) (U : String)
    (conns : List Conn) (info : ClientInfo)
    (hconns : alookup st.clients U = some conns) (hne : conns ≠ [])
    (hinfo : alookup st.redis U = some info) :
    ((sendToUser st writeOk U false).attempted = []
        ↔ info.enableNotification = false)
    ∧ (info.enableNotification = false →
        (sendToUser st writeOk U false).result
            = Except.error SendError.notificationsDisabled
        ∧ (sendToUser st writeOk U false).serialized = false)
    ∧ (info.enableNotification = true →
        (sendToUser st writeOk U false).attempted = conns) := by
  cases he : info.enableNotification <;>
    simp [sendToUser, getConnAndInfo, GetClientInfo, hconns, hinfo, he, hne]

/-- Witness for C1 at a concrete state: one live handle, notifications
disabled, so the send returns the disabled error without serializing. -/
theorem claim1_gate_witness :
    (sendToUser ⟨[("u", [1])], [("u", ⟨"u", false⟩)]⟩ (fun _ => true) "u"
        false).result = Except.error SendError.notificationsDisabled := by
  have h := claim1_gate ⟨[("u", [1])], [("u", ⟨"u", false⟩)]⟩ (fun _ => true)
    "u" [1] ⟨"u", false⟩ (by decide) (by decide) (by decide)
  exact (h.2.1 rfl).1

/-- C5 (amended): `sendToUser` returns the user-not-connected error iff the
registry map has NO entry for the user; an entry holding an empty slice (the
state left behind once every handle has been soft-pruned by failed writes)
is looked up successfully, so such a send proceeds and — gating aside —
returns ok, replacing the slice with the write survivors. -/
theorem claim5_not_connected_iff (st : StoreState) (w : Conn → Bool)
    (U : String) (b : Bool) :
    ((sendToUser st w U b).result = Except.error SendError.userNotConnected
      ↔ alookup st.clients U = none)
    ∧ (∀ conns, alookup st.clients U = some conns →
        (sendToUser st w U b).result = Except.ok () →
        alookup (sendToUser st w U b).state.clients U
          = some (conns.filter w)) := by
  cases hc : alookup st.clients U with
  | none => simp [sendToUser, getConnAndInfo, hc]
  | some conns =>
      cases hr : alookup st.redis U with
      | none => simp [sendToUser, getConnAndInfo, GetClientInfo, hc, hr]
      | some info =>
          by_cases hb : (!b && !info.enableNotification) = true
          · simp [sendToUser, getConnAndInfo, GetClientInfo, hc, hr, hb]
          · simp [sendToUser, getConnAndInfo, GetClientInfo, hc, hr, hb,
              alookup_aset_self]

/-- Witness for C5's amended theorem at a concrete post-prune state: the
entry for "u" is the empty slice, the send succeeds, and the surviving
slice is empty again. -/
theorem claim5_not_connected_iff_witness :
    alookup (sendToUser (⟨[("u", [])], [("u", ⟨"u", true⟩)]⟩ : StoreState)
        (fun _ => true) "u" false).state.clients "u" = some [] := by
  have h := claim5_not_connected_iff
    (⟨[("u", [])], [("u", ⟨"u", true⟩)]⟩ : StoreState) (fun _ => true) "u" false
  exact h.2 [] (by decide) (by decide)

/-- Counterexample to C5 as stated: starting from one live handle whose
write fails, the soft prune leaves an EMPTY registry entry for "u" (not a
missing one), and the next send to "u" — a user with no live handles —
returns ok, not the user-not-connected error. -/
theorem claim5_counterexample :
    (let st0 : StoreState := ⟨[("u", [1])], [("u", ⟨"u", true⟩)]⟩
     let st1 := (sendToUser st0 (fun _ => false) "u" false).state
     alookup st1.clients "u" = some []
       ∧ (sendToUser st1 (fun _ => true) "u" false).result = Except.ok ()
       ∧ ¬(sendToUser st1 (fun _ => true) "u" false).result
           = Except.error SendError.userNotConnected) := by
  decide

/-- C6: when the lookup and the gating check succeed (bypass or flag on),
`sendToUser` attempts the write on every handle in the user's slice, keeps
exactly the handles whose write succeeded, leaves the whole external Redis
store and every other user's registry entry unchanged, and returns ok no
matter how many writes failed. -/
theorem claim6_fanout (st : StoreState) (w : Conn → Bool) (U : String)
    (b : Bool) (conns : List Conn) (info : ClientInfo)
    (hconns : alookup st.clients U = some conns)
    (hinfo : alookup st.redis U = some info)
    (hgate : b = true ∨ info.enableNotification = true) :
    (sendToUser st w U b).attempted = conns
    ∧ alookup (sendToUser st w U b).state.clients U = some (conns.filter w)
    ∧ (sendToUser st w U b).state.redis = st.redis
    ∧ (∀ V, V ≠ U → alookup (sendToUser st w U b).state.clients V
        = alookup st.clients V)
    ∧ (sendToUser st w U b).result = Except.ok () := by
  have hb : (!b && !info.enableNotification) = false := by
    rcases hgate with h | h <;> simp [h]
  simp [sendToUser, getConnAndInfo, GetClientInfo, hconns, hinfo, hb,
    alookup_aset_self]
  exact fun V hV => alookup_aset_ne _ U V _ (Ne.symm hV)

/-- Witness for C6 at a concrete state: two handles, both writes fail, yet
the call returns ok and the slice is emptied while Redis keeps the record. -/
theorem claim6_fanout_witness :
    ((sendToUser (⟨[("u", [1, 2])], [("u", ⟨"u", true⟩)]⟩ : StoreState)
        (fun _ => false) "u" false).result = Except.ok ()
     ∧ alookup (sendToUser (⟨[("u", [1, 2])], [("u", ⟨"u", true⟩)]⟩ :
          StoreState) (fun _ => false) "u" false).state.clients "u"
        = some []) := by
  have h := claim6_fanout (⟨[("u", [1, 2])], [("u", ⟨"u", true⟩)]⟩ :
      StoreState) (fun _ => false) "u" false [1, 2] ⟨"u", true⟩
    (by decide) (by decide) (Or.inr rfl)
  exact ⟨h.2.2.2.2, h.2.1⟩

theorem registerAll_clients (info : ClientInfo) (cs : List Conn) :
    ∀ st : StoreState, ∀ l : List Conn,
      alookup st.clients info.id = some l →
      alookup (registerAll st info cs).clients info.id = some (l ++ cs) := by
  induction cs with
  | nil => intro st l h; simpa [registerAll] using h
  | cons c cs ih =>
      intro st l h
      have step : alookup ((StoreClient st true info c).2).clients info.id
          = some (l ++ [c]) := by
        simp [StoreClient, h, alookup_aset_self]
      have := ih ((StoreClient st true info c).2) (l ++ [c]) step
      simpa [registerAll, List.append_assoc] using this

theorem registerAll_redis (info : ClientInfo) (cs : List Conn) :
    ∀ st : StoreState, cs ≠ [] →
      alookup (registerAll st info cs).redis info.id = some info := by
  induction cs with
  | nil => intro st h; exact absurd rfl h
  | cons c cs ih =>
      intro st _
      cases cs with
      | nil => simp [registerAll, StoreClient, alookup_aset_self]
      | cons c' cs' =>
          exact ih ((StoreClient st true info c).2) (by simp)

theorem removeAll_of_no_entry (U : String) (hs : List Conn) :
    ∀ st : StoreState, alookup st.clients U = none →
      removeAll st U hs = st := by
  induction hs with
  | nil => intro st _; rfl
  | cons h t ih =>
      intro st hnone
      have step : RemoveConnection st U h = st := by
        simp [RemoveConnection, hnone]
      show removeAll (RemoveConnection st U h) U t = st
      rw [step]
      exact ih st hnone

theorem filter_ne_filter_not_mem (conns : List Conn) (h : Conn)
    (t : List Conn) :
    (conns.filter (fun x => x ≠ h)).filter (fun x => x ∉ t)
      = conns.filter (fun x => x ∉ h :: t) := by
  rw [List.filter_filter]
  apply List.filter_congr
  intro a _
  by_cases h1 : a = h <;> by_cases h2 : a ∈ t <;> simp [h1, h2]

theorem removeAll_partial (U : String) (hs : List Conn) :
    ∀ st : StoreState, ∀ conns : List Conn, ∀ c : Conn,
      alookup st.clients U = some conns → c ∈ conns → c ∉ hs →
      alookup (removeAll st U hs).clients U
          = some (conns.filter (fun x => x ∉ hs))
      ∧ (removeAll st U hs).redis = st.redis
      ∧ (∀ V, V ≠ U → alookup (removeAll st U hs).clients V
          = alookup st.clients V) := by
  induction hs with
  | nil =>
      intro st conns c hc _ _
      refine ⟨?_, rfl, fun V _ => rfl⟩
      simpa [removeAll] using hc
  | cons h t ih =>
      intro st conns c hc hmem hnot
      have hch : c ≠ h := fun he => hnot (he ▸ List.mem_cons_self h t)
      have hct : c ∉ t := fun ht => hnot (List.mem_cons_of_mem h ht)
      have hcrem : c ∈ conns.filter (fun x => x ≠ h) := by
        simp [List.mem_filter, hmem, hch]
      have hremne : conns.filter (fun x => x ≠ h) ≠ [] :=
        List.ne_nil_of_mem hcrem
      have hstep : RemoveConnection st U h
          = { st with
              clients := (aset st.clients U (conns.filter (fun x => x ≠ h))) } := by
        simp only [RemoveConnection, hc]
        rw [if_neg hremne]
      have hlook : alookup (RemoveConnection st U h).clients U
          = some (conns.filter (fun x => x ≠ h)) := by
        rw [hstep]; exact alookup_aset_self _ _ _
      obtain ⟨h1, h2, h3⟩ := ih (RemoveConnection st U h)
        (conns.filter (fun x => x ≠ h)) c hlook hcrem hct
      refine ⟨?_, ?_, ?_⟩
      · show alookup (removeAll (RemoveConnection st U h) U t).clients U = _
        rw [h1, filter_ne_filter_not_mem]
      · show (removeAll (RemoveConnection st U h) U t).redis = st.redis
        rw [h2, hstep]
      · intro V hV
        show alookup (removeAll (RemoveConnection st U h) U t).clients V = _
        rw [h3 V hV, hstep]
        exact alookup_aset_ne _ U V _ (Ne.symm hV)

theorem removeAll_all (U : String) (hs : List Conn) :
    ∀ st : StoreState, ∀ conns : List Conn,
      alookup st.clients U = some conns → conns ≠ [] →
      (∀ c ∈ conns, c ∈ hs) →
      alookup (removeAll st U hs).clients U = none
      ∧ alookup (removeAll st U hs).redis U = none := by
  induction hs with
  | nil =>
      intro st conns hc hne hsub
      obtain ⟨c, hcm⟩ := List.exists_mem_of_ne_nil conns hne
      exact absurd (hsub c hcm) (List.not_mem_nil c)
  | cons h t ih =>
      intro st conns hc hne hsub
      by_cases hrem : conns.filter (fun x => x ≠ h) = []
      · have hstep : RemoveConnection st U h
            = { clients := aerase st.clients U, redis := aerase st.redis U } := by
          simp only [RemoveConnection, hc]
          rw [if_pos hrem]
        have hnone : alookup (RemoveConnection st U h).clients U = none := by
          rw [hstep]; exact alookup_aerase_self _ _
        show alookup (removeAll (RemoveConnection st U h) U t).clients U = none
          ∧ alookup (removeAll (RemoveConnection st U h) U t).redis U = none
        rw [removeAll_of_no_entry U t _ hnone, hstep]
        exact ⟨alookup_aerase_self _ _, alookup_aerase_self _ _⟩
      · have hstep : RemoveConnection st U h
            = { st with
                clients := (aset st.clients U (conns.filter (fun x => x ≠ h))) } := by
          simp only [RemoveConnection, hc]
          rw [if_neg hrem]
        have hlook : alookup (RemoveConnection st U h).clients U
            = some (conns.filter (fun x => x ≠ h)) := by
          rw [hstep]; exact alookup_aset_self _ _ _
        have hsub' : ∀ c ∈ conns.filter (fun x => x ≠ h), c ∈ t := by
          intro c hcm
          have hm := List.mem_filter.mp hcm
          have hch : c ≠ h := by simpa using hm.2
          have := hsub c hm.1
          rcases List.mem_cons.mp this with he | ht
          · exact absurd he hch
          · exact ht
        exact ih (RemoveConnection st U h) (conns.filter (fun x => x ≠ h))
          hlook hrem hsub'

theorem removeConnection_no_entry (st : StoreState) (U : String) (c : Conn)
    (h : alookup st.clients U = none) : RemoveConnection st U c = st := by
  simp [RemoveConnection, h]

theorem removeConnection_absent (st : StoreState) (U : String) (c : Conn)
    (conns : List Conn) (hc : alookup st.clients U = some conns)
    (hne : conns ≠ []) (habs : c ∉ conns) : RemoveConnection st U c = st := by
  have hfilter : conns.filter (fun x => x ≠ c) = conns := by
    apply List.filter_eq_self.mpr
    intro a ha
    simp
    exact fun he => habs (he ▸ ha)
  have hset : aset st.clients U conns = st.clients :=
    aset_eq_of_lookup _ _ _ hc
  simp only [RemoveConnection, hc]
  rw [hfilter, if_neg hne, hset]

/-- C2 (amended): from a state with no registry entry for the user,
registering N handles yields an entry holding exactly those handles and the
external record; unregistering any set of handles that leaves at least one
registered handle behind only shrinks the slice (to the non-removed
handles) and leaves the whole external store untouched; unregistering all of
them removes the entry and deletes the external record; unregistering an
absent handle while the slice is NON-EMPTY, or with no entry at all, changes
nothing.  (The as-stated no-op clause fails when an entry exists but holds
the empty slice — see the counterexample.) -/
theorem claim2_amended (st : StoreState) (info : ClientInfo)
    (conns hs : List Conn) (h0 : alookup st.clients info.id = none) :
    (conns ≠ [] →
        alookup (registerAll st info conns).clients info.id = some conns)
    ∧ (conns ≠ [] →
        alookup (registerAll st info conns).redis info.id = some info)
    ∧ ((∃ c ∈ conns, c ∉ hs) →
        alookup (removeAll (registerAll st info conns) info.id hs).clients
            info.id = some (conns.filter (fun x => x ∉ hs))
        ∧ (removeAll (registerAll st info conns) info.id hs).redis
            = (registerAll st info conns).redis)
    ∧ (conns ≠ [] → (∀ c ∈ conns, c ∈ hs) →
        alookup (removeAll (registerAll st info conns) info.id hs).clients
            info.id = none
        ∧ alookup (removeAll (registerAll st info conns) info.id hs).redis
            info.id = none)
    ∧ (∀ c, c ∉ conns → conns ≠ [] →
        RemoveConnection (registerAll st info conns) info.id c
            = registerAll st info conns)
    ∧ (∀ c, RemoveConnection st info.id c = st) := by
  have hreg : conns ≠ [] →
      alookup (registerAll st info conns).clients info.id = some conns := by
    intro hne
    cases conns with
    | nil => exact absurd rfl hne
    | cons c rest =>
        have step : alookup ((StoreClient st true info c).2).clients info.id
            = some [c] := by
          simp [StoreClient, h0, alookup_aset_self]
        have := registerAll_clients info rest ((StoreClient st true info c).2)
          [c] step
        simpa [registerAll] using this
  refine ⟨hreg, fun hne => registerAll_redis info conns st hne, ?_, ?_, ?_, ?_⟩
  · rintro ⟨c, hcm, hcn⟩
    have hne : conns ≠ [] := List.ne_nil_of_mem hcm
    obtain ⟨h1, h2, _⟩ := removeAll_partial info.id hs
      (registerAll st info conns) conns c (hreg hne) hcm hcn
    exact ⟨h1, h2⟩
  · intro hne hsub
    exact removeAll_all info.id hs (registerAll st info conns) conns
      (hreg hne) hne hsub
  · intro c habs hne
    exact removeConnection_absent _ info.id c conns (hreg hne) hne habs
  · intro c
    exact removeConnection_no_entry st info.id c h0

/-- Witness for C2's amended theorem: register handles 1,2,3 for "u",
remove 1 and 2 — the entry shrinks to [3] and Redis is untouched; removing
all three deletes the Redis record. -/
theorem claim2_amended_witness :
    alookup (removeAll (registerAll ⟨[], []⟩ ⟨"u", true⟩ [1, 2, 3]) "u"
        [1, 2]).clients "u" = some [3]
    ∧ (removeAll (registerAll ⟨[], []⟩ ⟨"u", true⟩ [1, 2, 3]) "u"
        [1, 2]).redis = (registerAll ⟨[], []⟩ ⟨"u", true⟩ [1, 2, 3]).redis
    ∧ alookup (removeAll (registerAll ⟨[], []⟩ ⟨"u", true⟩ [1, 2, 3]) "u"
        [1, 2, 3]).redis "u" = none := by
  have h1 := claim2_amended ⟨[], []⟩ ⟨"u", true⟩ [1, 2, 3] [1, 2] (by decide)
  have h2 := claim2_amended ⟨[], []⟩ ⟨"u", true⟩ [1, 2, 3] [1, 2, 3] (by decide)
  obtain ⟨hp1, hp2⟩ := h1.2.2.1 ⟨3, by decide, by decide⟩
  exact ⟨hp1.trans (by decide), hp2,
    (h2.2.2.2.1 (by decide) (by decide)).2⟩

/-- Counterexample to C2 as stated: after registering handle 1 for "u" and
soft-pruning it through a failed bypassed send, the registry holds an EMPTY
entry for "u"; unregistering handle 2 — which is not in "u"'s handle set —
is then NOT a no-op: it removes the entry and deletes the external record. -/
theorem claim2_counterexample :
    (let st1 := (StoreClient ⟨[], []⟩ true ⟨"u", true⟩ 1).2
     let st2 := (sendToUser st1 (fun _ => false) "u" true).state
     alookup st2.clients "u" = some []
     ∧ (2 : Conn) ∉ ([] : List Conn)
     ∧ alookup st2.redis "u" = some ⟨"u", true⟩
     ∧ alookup (RemoveConnection st2 "u" 2).redis "u" = none
     ∧ ¬RemoveConnection st2 "u" 2 = st2) := by
  decide

theorem sendAll_kind (env : Env) (cid : String) (s : SessionState) :
    ((sendAllNotificationsToClient env cid s).2).kind = StepKind.listK := by
  cases h : env.findOk <;> simp [sendAllNotificationsToClient, h, Step.kind]

theorem sendAll_user (env : Env) (cid : String) (s : SessionState) :
    ((sendAllNotificationsToClient env cid s).2).user = some cid := by
  cases h : env.findOk <;> simp [sendAllNotificationsToClient, h, Step.user]

theorem sendCfg_kind (env : Env) (cid : String) (s : SessionState) :
    ((sendConfigurationsToClient env cid s).2).kind = StepKind.configK := by
  cases h : (if env.cfgFindOk then alookup s.cfgs cid else none) <;>
    simp [sendConfigurationsToClient, h, Step.kind]

theorem sendCfg_user (env : Env) (cid : String) (s : SessionState) :
    ((sendConfigurationsToClient env cid s).2).user = some cid := by
  cases h : (if env.cfgFindOk then alookup s.cfgs cid else none) <;>
    simp [sendConfigurationsToClient, h, Step.user]

theorem kind_actionPersist (b : Bool) :
    (Step.actionPersist b).kind = StepKind.persistK := rfl

theorem user_actionPersist (b : Bool) :
    (Step.actionPersist b).user = none := rfl

/-- C3 (amended): a frame whose outer envelope names one of the eight
mutation actions AND whose data payload decodes (required by the six actions
that carry one; `markAsRead` and `deleteNotifications` read no payload)
produces exactly the trace: the action's persistence call, followed by one
— exactly one — unread-list resend invocation targeting the invoking user,
regardless of whether the persistence call succeeded or failed.  (The resend
invocation itself reaches the socket only when the refetch succeeds and the
user's notification gate allows it; a frame whose inner payload fails to
decode triggers NO resend at all — see the counterexample.) -/
theorem claim3_mutation_resend (env : Env) (cid : String) (f : Frame)
    (a : String) (s : SessionState) (houter : f.outer = some a)
    (hmut : a ∈ [MARK_AS_READ, MARK_APP_AS_READ, MARK_GROUP_AS_READ,
      MARK_NOTIFICATION_AS_READ, DELETE_NOTIFICATIONS,
      DELETE_APP_NOTIFICATIONS, DELETE_GROUP_NOTIFICATIONS,
      DELETE_NOTIFICATION])
    (hinner : a ≠ MARK_AS_READ → a ≠ DELETE_NOTIFICATIONS →
      ∃ d, f.innerNotif = some d) :
    (dispatch env cid a f s).2.map Step.kind
        = [StepKind.persistK, StepKind.listK]
    ∧ (dispatch env cid a f s).2.filterMap Step.user = [cid] := by
  simp only [List.mem_cons, List.not_mem_nil, or_false] at hmut
  rcases hmut with rfl | rfl | rfl | rfl | rfl | rfl | rfl | rfl
  · simp [dispatch, MARK_AS_READ, markAsReadAction, sendAll_kind,
      sendAll_user, kind_actionPersist, user_actionPersist]
  · obtain ⟨d, hd⟩ := hinner (by decide) (by decide)
    simp [dispatch, MARK_AS_READ, MARK_APP_AS_READ, markAppReadAction, hd,
      sendAll_kind, sendAll_user, kind_actionPersist, user_actionPersist]
  · obtain ⟨d, hd⟩ := hinner (by decide) (by decide)
    simp [dispatch, MARK_AS_READ, MARK_APP_AS_READ, MARK_GROUP_AS_READ,
      markGroupAsReadAction, hd, sendAll_kind, sendAll_user, kind_actionPersist,
      user_actionPersist]
  · obtain ⟨d, hd⟩ := hinner (by decide) (by decide)
    simp [dispatch, MARK_AS_READ, MARK_APP_AS_READ, MARK_GROUP_AS_READ,
      MARK_NOTIFICATION_AS_READ, markNotificationAsReadAction, hd,
      sendAll_kind, sendAll_user, kind_actionPersist, user_actionPersist]
  · simp [dispatch, MARK_AS_READ, MARK_APP_AS_READ, MARK_GROUP_AS_READ,
      MARK_NOTIFICATION_AS_READ, DELETE_NOTIFICATIONS,
      deleteNotificationsAction, sendAll_kind, sendAll_user,
      kind_actionPersist, user_actionPersist]
  · obtain ⟨d, hd⟩ := hinner (by decide) (by decide)
    simp [dispatch, MARK_AS_READ, MARK_APP_AS_READ, MARK_GROUP_AS_READ,
      MARK_NOTIFICATION_AS_READ, DELETE_NOTIFICATIONS,
      DELETE_APP_NOTIFICATIONS, deleteAppNotificationsAction, hd,
      sendAll_kind, sendAll_user, kind_actionPersist, user_actionPersist]
  · obtain ⟨d, hd⟩ := hinner (by decide) (by decide)
    simp [dispatch, MARK_AS_READ, MARK_APP_AS_READ, MARK_GROUP_AS_READ,
      MARK_NOTIFICATION_AS_READ, DELETE_NOTIFICATIONS,
      DELETE_APP_NOTIFICATIONS, DELETE_GROUP_NOTIFICATIONS,
      deleteGroupNotificationAction, hd, sendAll_kind, sendAll_user,
      kind_actionPersist, user_actionPersist]
  · obtain ⟨d, hd⟩ := hinner (by decide) (by decide)
    simp [dispatch, MARK_AS_READ, MARK_APP_AS_READ, MARK_GROUP_AS_READ,
      MARK_NOTIFICATION_AS_READ, DELETE_NOTIFICATIONS,
      DELETE_APP_NOTIFICATIONS, DELETE_GROUP_NOTIFICATIONS,
      DELETE_NOTIFICATION, deleteNotificationAction, hd, sendAll_kind,
      sendAll_user, kind_actionPersist, user_actionPersist]

/-- Witness for C3's amended theorem: a fully-decoding `markAppAsRead`
frame produces exactly one persistence step and one list resend to "u". -/
theorem claim3_mutation_resend_witness :
    (dispatch ⟨fun _ => true, true, true, true, true, true, true⟩ "u"
        "markAppAsRead" ⟨some "markAppAsRead", some ⟨"n1", "app", "g"⟩, none⟩
        ⟨[], ⟨[], []⟩, []⟩).2.map Step.kind
      = [StepKind.persistK, StepKind.listK] := by
  have h := claim3_mutation_resend
    ⟨fun _ => true, true, true, true, true, true, true⟩ "u"
    ⟨some "markAppAsRead", some ⟨"n1", "app", "g"⟩, none⟩ "markAppAsRead"
    ⟨[], ⟨[], []⟩, []⟩ rfl (by decide)
    (fun _ _ => ⟨⟨"n1", "app", "g"⟩, rfl⟩)
  exact h.1

/-- Counterexample to C3 as stated: a frame whose outer envelope names the
mutation action `markAppAsRead` but whose data payload fails to decode is
dropped by the handler before the persistence call — its trace is empty, so
processing it is NOT followed by a resend of the unread-notification list. -/
theorem claim3_counterexample :
    (dispatch ⟨fun _ => true, true, true, true, true, true, true⟩ "u"
        "markAppAsRead" ⟨some "markAppAsRead", none, none⟩
        ⟨[], ⟨[], []⟩, []⟩).2 = [] := by
  decide

/-- C4: a decoded `toggleNotificationStatus` frame with the flag true
produces the configuration update step, then a notification-list resend,
then a configuration resend, in that order; with the flag false it produces
the update step and ONLY the configuration resend; every resend targets the
invoking user. -/
theorem claim4_toggle (env : Env) (cid : String) (f : Frame)
    (cfg : ConfigData) (s : SessionState)
    (hinner : f.innerConfig = some cfg) :
    ((dispatch env cid TOGGLE_NOTIFICATION_STATUS f s).2.map Step.kind
      = if cfg.enableNotification then
          [StepKind.persistK, StepKind.listK, StepKind.configK]
        else [StepKind.persistK, StepKind.configK])
    ∧ ((dispatch env cid TOGGLE_NOTIFICATION_STATUS f s).2.filterMap Step.user
      = if cfg.enableNotification then [cid, cid] else [cid]) := by
  cases hf : cfg.enableNotification <;>
    simp [dispatch, MARK_AS_READ, MARK_APP_AS_READ, MARK_GROUP_AS_READ,
      MARK_NOTIFICATION_AS_READ, DELETE_NOTIFICATIONS,
      DELETE_APP_NOTIFICATIONS, DELETE_GROUP_NOTIFICATIONS,
      DELETE_NOTIFICATION, RELOAD_NOTIFICATIONS, TOGGLE_NOTIFICATION_STATUS,
      toggleNotificationStatusAction, hinner, hf, sendAll_kind, sendAll_user,
      sendCfg_kind, sendCfg_user, kind_actionPersist, user_actionPersist]

/-- Witness for C4 at concrete inputs, both toggle directions. -/
theorem claim4_toggle_witness :
    ((dispatch ⟨fun _ => true, true, true, true, true, true, true⟩ "u"
        TOGGLE_NOTIFICATION_STATUS ⟨some "toggleNotificationStatus", none,
        some ⟨true⟩⟩ ⟨[], ⟨[], []⟩, []⟩).2.map Step.kind
      = [StepKind.persistK, StepKind.listK, StepKind.configK])
    ∧ ((dispatch ⟨fun _ => true, true, true, true, true, true, true⟩ "u"
        TOGGLE_NOTIFICATION_STATUS ⟨some "toggleNotificationStatus", none,
        some ⟨false⟩⟩ ⟨[], ⟨[], []⟩, []⟩).2.map Step.kind
      = [StepKind.persistK, StepKind.configK]) := by
  have h1 := claim4_toggle ⟨fun _ => true, true, true, true, true, true, true⟩
    "u" ⟨some "toggleNotificationStatus", none, some ⟨true⟩⟩ ⟨true⟩
    ⟨[], ⟨[], []⟩, []⟩ rfl
  have h2 := claim4_toggle ⟨fun _ => true, true, true, true, true, true, true⟩
    "u" ⟨some "toggleNotificationStatus", none, some ⟨false⟩⟩ ⟨false⟩
    ⟨[], ⟨[], []⟩, []⟩ rfl
  exact ⟨h1.1.trans (by decide), h2.1.trans (by decide)⟩

/-- C7 (amended): an upstream event that decodes for a connected user whose
ClientInfo flag is false is persisted with `readStatus = false` (gating never
blocks persistence) and no `newNotification` write reaches any handle; the
record appears in a subsequent unread-list fetch, but the reload's delivery
is itself gated — the resend routine attempts no write and reports the
notifications-disabled error, so the user receives nothing while disabled. -/
theorem claim7_gated_event (db : List NotifRecord) (st : StoreState)
    (w : Conn → Bool) (newId : String) (ed : UpstreamPayload)
    (conns : List Conn) (cfgs : AList Bool)
    (hconns : alookup st.clients ed.userId = some conns)
    (hinfo : alookup st.redis ed.userId = some ⟨ed.userId, false⟩) :
    (onEventReceived db st w newId true (some ed)).persisted = true
    ∧ (onEventReceived db st w newId true (some ed)).db = db ++
        [⟨newId, ed.userId, ed.appId, ed.groupKey, ed.message, ed.status,
          false⟩]
    ∧ (onEventReceived db st w newId true (some ed)).pushAttempted = []
    ∧ (onEventReceived db st w newId true (some ed)).pushResult
        = some (Except.error SendError.notificationsDisabled)
    ∧ (onEventReceived db st w newId true (some ed)).store = st
    ∧ (⟨newId, ed.userId, ed.appId, ed.groupKey, ed.message, ed.status,
        false⟩ : NotifRecord)
        ∈ FindAll (onEventReceived db st w newId true (some ed)).db ed.userId
    ∧ (∀ env : Env, env.findOk = true →
        (sendAllNotificationsToClient env ed.userId
            ⟨(onEventReceived db st w newId true (some ed)).db,
              (onEventReceived db st w newId true (some ed)).store, cfgs⟩).2
          = Step.listResend ⟨ed.userId, true,
              FindAll (onEventReceived db st w newId true (some ed)).db
                ed.userId,
              some (Except.error SendError.notificationsDisabled), []⟩) := by
  have hsend : sendToUser st w ed.userId false
      = ⟨Except.error SendError.notificationsDisabled, st, [], false⟩ := by
    simp [sendToUser, getConnAndInfo, GetClientInfo, hconns, hinfo]
  have hout : onEventReceived db st w newId true (some ed)
      = ⟨db ++ [⟨newId, ed.userId, ed.appId, ed.groupKey, ed.message,
          ed.status, false⟩], st, true,
          some (Except.error SendError.notificationsDisabled), []⟩ := by
    simp [onEventReceived, CreateNotification, hsend]
  rw [hout]
  refine ⟨rfl, rfl, rfl, rfl, rfl, ?_, ?_⟩
  · simp [FindAll, List.mem_filter]
  · intro env hfind
    have hsend2 : sendToUser st env.writeOk ed.userId false
        = ⟨Except.error SendError.notificationsDisabled, st, [], false⟩ := by
      simp [sendToUser, getConnAndInfo, GetClientInfo, hconns, hinfo]
    simp [sendAllNotificationsToClient, hfind, hsend2]

/-- Witness for C7's amended theorem at concrete inputs: user "u2" with one
handle and the flag off; the event is persisted unread, the push is gated,
and the reload invocation is gated too. -/
theorem claim7_gated_event_witness :
    (onEventReceived [] ⟨[("u2", [5])], [("u2", ⟨"u2", false⟩)]⟩
        (fun _ => true) "n1" true
        (some ⟨"A", "u2", "G", "m", "success"⟩)).pushAttempted = []
    ∧ (onEventReceived [] ⟨[("u2", [5])], [("u2", ⟨"u2", false⟩)]⟩
        (fun _ => true) "n1" true
        (some ⟨"A", "u2", "G", "m", "success"⟩)).db
      = [⟨"n1", "u2", "A", "G", "m", "success", false⟩] := by
  have h := claim7_gated_event [] ⟨[("u2", [5])], [("u2", ⟨"u2", false⟩)]⟩
    (fun _ => true) "n1" ⟨"A", "u2", "G", "m", "success"⟩ [5] []
    (by decide) (by decide)
  exact ⟨h.2.2.1, h.2.1.trans (by decide)⟩

/-- Counterexample to C7 as stated: concrete run for user "u2" (one handle,
notifications off).  The upstream event is persisted unread and the push is
withheld — but the claimed follow-up fails: the subsequent
`reloadNotifications` fetches the list containing the notification and then
attempts NO write at all (gated as notifications-disabled), so "u2" does not
receive the list while disabled. -/
theorem claim7_counterexample :
    (let st : StoreState := ⟨[("u2", [5])], [("u2", ⟨"u2", false⟩)]⟩
     let env : Env := ⟨fun _ => true, true, true, true, true, true, true⟩
     let o := onEventReceived [] st env.writeOk "n1" true
       (some ⟨"A", "u2", "G", "m", "success"⟩)
     let rl := sendAllNotificationsToClient env "u2"
       ⟨o.db, o.store, [("u2", false)]⟩
     o.db = [⟨"n1", "u2", "A", "G", "m", "success", false⟩]
     ∧ o.pushAttempted = []
     ∧ rl.2 = Step.listResend ⟨"u2", true,
         [⟨"n1", "u2", "A", "G", "m", "success", false⟩],
         some (Except.error SendError.notificationsDisabled), []⟩) := by
  decide

/-- C8 (amended): the session leaves the Streaming state (read loop exits,
unregistering the handle) exactly when a transport read error occurs in the
inbound schedule — messages whose outer envelope fails to decode, however
many, are skipped and never end the loop; independently, the keepalive task
stops exactly when a probe write fails, and its stop removes the handle
(its deferred socket close then surfaces as a read error in the read loop). -/
theorem claim8_streaming_to_closing (env : Env) (cid : String) (conn : Conn)
    (events : List InEvent) (s : SessionState) (st : StoreState)
    (pings : List Bool) :
    ((readLoop env cid conn events s).exited = true
      ↔ InEvent.readErr ∈ events)
    ∧ ((keepaliveLoop st cid conn pings).1 = true ↔ false ∈ pings)
    ∧ (false ∈ pings →
        (keepaliveLoop st cid conn pings).2 = RemoveConnection st cid conn) := by
  refine ⟨?_, ?_, ?_⟩
  · induction events generalizing s with
    | nil => simp [readLoop]
    | cons e rest ih =>
        cases e with
        | readErr => simp [readLoop]
        | msg f =>
            cases houter : f.outer with
            | none => simp [readLoop, houter, ih]
            | some ev => simp [readLoop, houter, ih]
  · induction pings with
    | nil => simp [keepaliveLoop]
    | cons ok rest ih =>
        cases ok with
        | false => simp [keepaliveLoop]
        | true => simp [keepaliveLoop, ih]
  · induction pings with
    | nil => simp
    | cons ok rest ih =>
        cases ok with
        | false => intro _; simp [keepaliveLoop]
        | true =>
            intro hmem
            have : false ∈ rest := by simpa using hmem
            simpa [keepaliveLoop] using ih this

/-- Witness for C8's amended theorem: a schedule of one good frame then a
read error does exit; an all-successful ping schedule does not stop. -/
theorem claim8_streaming_to_closing_witness :
    (readLoop ⟨fun _ => true, true, true, true, true, true, true⟩ "u" 1
        [InEvent.msg ⟨some "reloadNotifications", none, none⟩,
         InEvent.readErr] ⟨[], ⟨[("u", [1])], [("u", ⟨"u", true⟩)]⟩,
        []⟩).exited = true := by
  have h := claim8_streaming_to_closing
    ⟨fun _ => true, true, true, true, true, true, true⟩ "u" 1
    [InEvent.msg ⟨some "reloadNotifications", none, none⟩, InEvent.readErr]
    ⟨[], ⟨[("u", [1])], [("u", ⟨"u", true⟩)]⟩, []⟩
    ⟨[("u", [1])], [("u", ⟨"u", true⟩)]⟩ [true]
  exact h.1.mpr (by decide)

/-- Counterexample to C8 as stated: a session fed three frames that all fail
outer-envelope decoding (and no read error) processes them all WITHOUT
leaving the Streaming state — the loop does not exit and the handle stays
registered. -/
theorem claim8_counterexample :
    ((readLoop ⟨fun _ => true, true, true, true, true, true, true⟩ "u" 1
        [InEvent.msg ⟨none, none, none⟩, InEvent.msg ⟨none, none, none⟩,
         InEvent.msg ⟨none, none, none⟩]
        ⟨[], ⟨[("u", [1])], [("u", ⟨"u", true⟩)]⟩, []⟩).exited = false
     ∧ (readLoop ⟨fun _ => true, true, true, true, true, true, true⟩ "u" 1
        [InEvent.msg ⟨none, none, none⟩, InEvent.msg ⟨none, none, none⟩,
         InEvent.msg ⟨none, none, none⟩]
        ⟨[], ⟨[("u", [1])], [("u", ⟨"u", true⟩)]⟩, []⟩).sess.store.clients
       = [("u", [1])]) := by
  decide

theorem mem_eraseP_of_not {α : Type} (p : α → Bool) (l : List α) (a : α)
    (ha : a ∈ l) (hpa : p a = false) : a ∈ l.eraseP p := by
  induction l with
  | nil => cases ha
  | cons x xs ih =>
      rcases List.mem_cons.mp ha with rfl | hxs
      · simp [List.eraseP_cons, hpa]
      · cases hx : p x
        · simp [List.eraseP_cons, hx, ih hxs]
        · simp [List.eraseP_cons, hx, hxs]

/-- C9: `MarkNotificationAsRead` filters on the notification id ALONE, so a
user U ≠ V marking V's notification still flips its readStatus to true;
`DeleteNotification` filters on both the caller's userId and the id, so the
same call pattern never removes V's notification. -/
theorem claim9_cross_user (db : List NotifRecord) (U V : String)
    (n : NotifRecord) (hmem : n ∈ db) (hown : n.userId = V) (hUV : U ≠ V)
    (hid : goTrimId n.id = n.id) (hhex : objectIDFromHex n.id = some n.id) :
    (MarkNotificationAsRead db U n.id
        = Except.ok (db.map (fun r =>
            if r.id = n.id then { r with readStatus := true } else r))
      ∧ { n with readStatus := true }
          ∈ db.map (fun r =>
            if r.id = n.id then { r with readStatus := true } else r))
    ∧ (DeleteNotification db U n.id
        = Except.ok (db.eraseP (fun r => r.userId = U && r.id = n.id))
      ∧ n ∈ db.eraseP (fun r => r.userId = U && r.id = n.id)) := by
  have hpa : (decide (n.userId = U) && decide (n.id = n.id)) = false := by
    have : n.userId ≠ U := by rw [hown]; exact Ne.symm hUV
    simp [this]
  refine ⟨⟨?_, ?_⟩, ?_, ?_⟩
  · simp [MarkNotificationAsRead, hid, hhex]
  · exact List.mem_map.mpr ⟨n, hmem, by simp⟩
  · simp [DeleteNotification, hid, hhex]
  · exact mem_eraseP_of_not _ db n hmem hpa

/-- Witness for C9 at a concrete database: user "u" marks "v"'s notification
read (it flips), while "u"'s delete of the same id removes nothing. -/
theorem claim9_cross_user_witness :
    MarkNotificationAsRead
        [⟨"0123456789abcdef01234567", "v", "a", "g", "m", "s", false⟩] "u"
        "0123456789abcdef01234567"
      = Except.ok
        [⟨"0123456789abcdef01234567", "v", "a", "g", "m", "s", true⟩]
    ∧ DeleteNotification
        [⟨"0123456789abcdef01234567", "v", "a", "g", "m", "s", false⟩] "u"
        "0123456789abcdef01234567"
      = Except.ok
        [⟨"0123456789abcdef01234567", "v", "a", "g", "m", "s", false⟩] := by
  have h := claim9_cross_user
    [⟨"0123456789abcdef01234567", "v", "a", "g", "m", "s", false⟩] "u" "v"
    ⟨"0123456789abcdef01234567", "v", "a", "g", "m", "s", false⟩
    (by decide) rfl (by decide) (by decide) (by decide)
  exact ⟨h.1.1.trans (by decide), h.2.1.trans (by decide)⟩

/-- C10: `StoreClient` appends the handle to the in-memory registry BEFORE
the external write; when the Redis write fails it returns an error with the
handle still registered and Redis untouched; the connect flow then closes
the socket and aborts WITHOUT unregistering, leaving the new handle in the
user's live set. -/
theorem claim10_register_not_atomic (st : StoreState) (cfgs : AList Bool)
    (db : List NotifRecord) (env : Env) (clientID : String) (conn : Conn)
    (en : Bool) (hredis : env.redisSetOk = false)
    (hcfg : env.cfgFindOk = true)
    (hrow : alookup cfgs clientID = some en) :
    ((StoreClient st false ⟨clientID, en⟩ conn).1 = Except.error ()
      ∧ alookup (StoreClient st false ⟨clientID, en⟩ conn).2.clients clientID
          = some ((alookup st.clients clientID).getD [] ++ [conn])
      ∧ (StoreClient st false ⟨clientID, en⟩ conn).2.redis = st.redis)
    ∧ ((handleConnect env clientID conn ⟨db, st, cfgs⟩).aborted = true
      ∧ (handleConnect env clientID conn ⟨db, st, cfgs⟩).unregisterCalled
          = false
      ∧ conn ∈ (alookup (handleConnect env clientID conn
          ⟨db, st, cfgs⟩).sess.store.clients clientID).getD []
      ∧ (handleConnect env clientID conn ⟨db, st, cfgs⟩).trace = []) := by
  have hstore : StoreClient st false ⟨clientID, en⟩ conn
      = (Except.error (), { st with
          clients := (aset st.clients clientID
            ((alookup st.clients clientID).getD [] ++ [conn])) }) := by
    simp [StoreClient]
  have hconn : handleConnect env clientID conn ⟨db, st, cfgs⟩
      = ⟨⟨db, { st with
          clients := (aset st.clients clientID
            ((alookup st.clients clientID).getD [] ++ [conn])) }, cfgs⟩,
          true, false, []⟩ := by
    simp [handleConnect, hcfg, hrow, hredis, hstore]
  refine ⟨⟨?_, ?_, ?_⟩, ?_, ?_, ?_, ?_⟩
  · rw [hstore]
  · rw [hstore]; exact alookup_aset_self _ _ _
  · rw [hstore]
  · rw [hconn]
  · rw [hconn]
  · rw [hconn]
    simp [alookup_aset_self]
  · rw [hconn]

/-- Witness for C10 at a concrete state: "u" already holds handle 1; a
registration of handle 2 whose Redis write fails errors out but leaves both
handles in the live set, and the connect flow aborts without unregistering. -/
theorem claim10_register_not_atomic_witness :
    alookup (StoreClient ⟨[("u", [1])], []⟩ false ⟨"u", true⟩ 2).2.clients "u"
      = some [1, 2]
    ∧ (handleConnect ⟨fun _ => true, true, true, true, true, true, false⟩
        "u" 2 ⟨[], ⟨[("u", [1])], []⟩, [("u", true)]⟩).aborted = true := by
  have h := claim10_register_not_atomic ⟨[("u", [1])], []⟩ [("u", true)] []
    ⟨fun _ => true, true, true, true, true, true, false⟩ "u" 2 true rfl rfl
    (by decide)
  exact ⟨h.1.2.1.trans (by decide), h.2.1⟩

end R2Notify
